import Mathlib

/-!
Shallow embedding of the Task & Pomodoro HTTP service (`src/main.py`).

State lives in two in-memory lists, `tasks` and `pomodoro_sessions`.
Each handler is modelled as a pure function from the server state (plus
its request parameters, and the current time for the pomodoro handlers)
to either an `HTTPException` or the updated state together with the
returned record. Timestamps are integers (seconds); `timedelta(minutes=25)`
is the constant `twentyFiveMinutes = 25 * 60`.
-/

namespace TaskApp

/-- Stored task record: the dict `task_data` built in `create_task`
(`task.dict()` plus the assigned `id`). -/
structure TaskData where
  id : Nat
  title : String
  description : Option String
  status : String
deriving DecidableEq, Repr

/-- Request body of POST /tasks and PUT /tasks, the pydantic `Task` model:
`title`, optional `description`, `status` defaulting to `"TODO"`. -/
structure TaskIn where
  title : String
  description : Option String := none
  status : String := "TODO"
deriving DecidableEq, Repr

/-- Session record appended by `create_pomodoro`, mirroring the dict with
keys `task_id`, `start_time`, `end_time`, `completed`. -/
structure PomodoroSession where
  task_id : Nat
  start_time : Int
  end_time : Int
  completed : Bool
deriving DecidableEq, Repr

/-- The two module-level mutable lists of `src/main.py`. -/
structure ServerState where
  tasks : List TaskData
  pomodoro_sessions : List PomodoroSession
deriving DecidableEq, Repr

/-- FastAPI `HTTPException(status_code=..., detail=...)`. -/
structure HTTPException where
  status_code : Nat
  detail : String
deriving DecidableEq, Repr

def duplicateTitleErr : HTTPException :=
  ⟨400, "Task title must be unique."⟩

def notFoundErr : HTTPException :=
  ⟨404, "Task not found."⟩

def activeTimerExistsErr : HTTPException :=
  ⟨400, "An active Pomodoro timer already exists for this task."⟩

def noActiveTimerErr : HTTPException :=
  ⟨400, "No active Pomodoro timer found for this task."⟩

/-- The `timedelta(minutes=25)` constant, in seconds. -/
def twentyFiveMinutes : Int := 25 * 60

/-- In-place mutation of the first element satisfying `p` (Python finds a
record with `next(...)` and mutates that object inside the list). -/
def updateFirst {α : Type} (p : α → Bool) (f : α → α) : List α → List α
  | [] => []
  | a :: l => if p a then f a :: l else a :: updateFirst p f l

/-- Effect of `task.update(updated_task.dict())`: overwrite `title`,
`description` and `status`, keeping the remaining key (the `id`). -/
def applyTaskIn (u : TaskIn) (t : TaskData) : TaskData :=
  { t with title := u.title, description := u.description, status := u.status }

/-- Python's `session["task_id"] == task_id and not session["completed"]`:
the session is the active timer of this task. -/
def isActive (task_id : Nat) (session : PomodoroSession) : Bool :=
  session.task_id == task_id && !session.completed

/-- Mutation performed by `stop_pomodoro`: `completed = True` and
`end_time = datetime.now()`. -/
def completeAt (now : Int) (session : PomodoroSession) : PomodoroSession :=
  { session with completed := true, end_time := now }

/-- POST /tasks (`create_task`): reject a duplicate title with 400,
otherwise assign `id = len(tasks) + 1`, append and return the record. -/
def create_task (s : ServerState) (task : TaskIn) :
    Except HTTPException (ServerState × TaskData) :=
  if s.tasks.any (fun t => t.title == task.title) then
    .error duplicateTitleErr
  else
    let task_id := s.tasks.length + 1
    let task_data : TaskData := ⟨task_id, task.title, task.description, task.status⟩
    .ok ({ s with tasks := s.tasks ++ [task_data] }, task_data)

/-- GET /tasks (`get_tasks`): all tasks, or those matching the status filter. -/
def get_tasks (s : ServerState) (status : Option String) : List TaskData :=
  match status with
  | some st => s.tasks.filter (fun t => t.status == st)
  | none => s.tasks

/-- GET /tasks/id (`get_task`): first task with the id, else 404. -/
def get_task (s : ServerState) (task_id : Nat) : Except HTTPException TaskData :=
  match s.tasks.find? (fun t => t.id == task_id) with
  | none => .error notFoundErr
  | some t => .ok t

/-- PUT /tasks/id (`update_task`): 404 when the id is absent; 400 when the
new title differs from the current one and some task already has it;
otherwise `task.update(updated_task.dict())` overwrites title, description
and status on the found record, keeping its id. -/
def update_task (s : ServerState) (task_id : Nat) (updated_task : TaskIn) :
    Except HTTPException (ServerState × TaskData) :=
  match s.tasks.find? (fun t => t.id == task_id) with
  | none => .error notFoundErr
  | some task =>
    if updated_task.title != task.title &&
        s.tasks.any (fun t => t.title == updated_task.title) then
      .error duplicateTitleErr
    else
      let newTasks := updateFirst (fun t => t.id == task_id) (applyTaskIn updated_task) s.tasks
      .ok ({ s with tasks := newTasks }, applyTaskIn updated_task task)

/-- DELETE /tasks/id (`delete_task`): 404 when absent, otherwise rebuild
the list keeping only the tasks whose id differs. -/
def delete_task (s : ServerState) (task_id : Nat) :
    Except HTTPException ServerState :=
  match s.tasks.find? (fun t => t.id == task_id) with
  | none => .error notFoundErr
  | some _ => .ok { s with tasks := s.tasks.filter (fun t => t.id != task_id) }

/-- POST /pomodoro (`create_pomodoro`): 404 when the task id is absent,
400 when an uncompleted session for it exists, otherwise append a session
running from `now` to `now + 25 minutes`. -/
def create_pomodoro (s : ServerState) (task_id : Nat) (now : Int) :
    Except HTTPException (ServerState × PomodoroSession) :=
  match s.tasks.find? (fun t => t.id == task_id) with
  | none => .error notFoundErr
  | some _ =>
    if s.pomodoro_sessions.any (isActive task_id) then
      .error activeTimerExistsErr
    else
      let session : PomodoroSession := ⟨task_id, now, now + twentyFiveMinutes, false⟩
      .ok ({ s with pomodoro_sessions := s.pomodoro_sessions ++ [session] }, session)

/-- POST /pomodoro/task_id/stop (`stop_pomodoro`): find the first session
for this task with `completed = false` (400 when none), set `completed`
to true and overwrite `end_time` with the current time. -/
def stop_pomodoro (s : ServerState) (task_id : Nat) (now : Int) :
    Except HTTPException ServerState :=
  match s.pomodoro_sessions.find? (isActive task_id) with
  | none => .error noActiveTimerErr
  | some _ =>
    let newSessions := updateFirst (isActive task_id) (completeAt now) s.pomodoro_sessions
    .ok { s with pomodoro_sessions := newSessions }

/-- Per-task aggregate of GET /pomodoro/stats: `{"count": ..., "total_time": ...}`. -/
structure Stat where
  count : Nat
  total_time : Int
deriving DecidableEq, Repr

/-- One iteration of the loop in `get_pomodoro_stats`: skip uncompleted
sessions; otherwise insert a zero entry when the task id is new, then
bump `count` and add `end_time - start_time` to `total_time`. -/
def statsStep (stats : List (Nat × Stat)) (session : PomodoroSession) :
    List (Nat × Stat) :=
  if session.completed then
    let stats1 :=
      if (stats.find? (fun p => p.1 == session.task_id)).isSome then stats
      else stats ++ [(session.task_id, ⟨0, 0⟩)]
    updateFirst (fun p => p.1 == session.task_id)
      (fun p => (p.1, ⟨p.2.count + 1,
                       p.2.total_time + (session.end_time - session.start_time)⟩))
      stats1
  else stats

/-- GET /pomodoro/stats (`get_pomodoro_stats`): fold the loop over all
sessions, starting from the empty dict (modelled as an insertion-ordered
association list). -/
def get_pomodoro_stats (s : ServerState) : List (Nat × Stat) :=
  s.pomodoro_sessions.foldl statsStep []

/-- Lookup in the stats dict. -/
def lookupStat (stats : List (Nat × Stat)) (task_id : Nat) : Option Stat :=
  (stats.find? (fun p => p.1 == task_id)).map (fun p => p.2)

/-- One client request, with the wall-clock time for the handlers that read it. -/
inductive Op where
  | create (task : TaskIn)
  | listTasks (status : Option String)
  | get (task_id : Nat)
  | update (task_id : Nat) (task : TaskIn)
  | delete (task_id : Nat)
  | start (task_id : Nat) (now : Int)
  | stop (task_id : Nat) (now : Int)
  | stats
deriving DecidableEq, Repr

/-- State left behind by one request: an `HTTPException` leaves both
collections untouched, read-only handlers touch nothing. -/
def applyOp (s : ServerState) : Op → ServerState
  | .create task =>
    match create_task s task with
    | .ok (s', _) => s'
    | .error _ => s
  | .listTasks _ => s
  | .get _ => s
  | .update task_id task =>
    match update_task s task_id task with
    | .ok (s', _) => s'
    | .error _ => s
  | .delete task_id =>
    match delete_task s task_id with
    | .ok s' => s'
    | .error _ => s
  | .start task_id now =>
    match create_pomodoro s task_id now with
    | .ok (s', _) => s'
    | .error _ => s
  | .stop task_id now =>
    match stop_pomodoro s task_id now with
    | .ok s' => s'
    | .error _ => s
  | .stats => s

/-- Run a sequence of requests from a given state. -/
def runOps (s : ServerState) (ops : List Op) : ServerState :=
  ops.foldl applyOp s

/-- Module initialisation: `tasks = []`, `pomodoro_sessions = []`. -/
def initState : ServerState := ⟨[], []⟩

/-- States the server can be in after some sequence of requests. -/
def reachable (s : ServerState) : Prop :=
  ∃ ops, runOps initState ops = s

/-- Number of uncompleted ("active") sessions for a task id. -/
def activeCount (sessions : List PomodoroSession) (task_id : Nat) : Nat :=
  sessions.countP (isActive task_id)

/-- Predicate selecting the completed sessions of one task, as the stats
loop does (`session["completed"]` and matching `task_id`). -/
def completedFor (task_id : Nat) (session : PomodoroSession) : Bool :=
  session.completed && session.task_id == task_id

/-- Total `end_time - start_time` over the completed sessions of one task. -/
def totalFor (sessions : List PomodoroSession) (task_id : Nat) : Int :=
  ((sessions.filter (completedFor task_id)).map
    (fun session => session.end_time - session.start_time)).sum

end TaskApp

namespace TaskApp

/-! Generic lemmas about `find?` and `updateFirst` -/

theorem find?_middle {α : Type} (p : α → Bool) :
    ∀ (l1 : List α) (a : α) (l2 : List α),
      (∀ x ∈ l1, p x = false) → p a = true →
      (l1 ++ a :: l2).find? p = some a := by
  intro l1
  induction l1 with
  | nil =>
    intro a l2 _ hpa
    simpa using List.find?_cons_of_pos l2 hpa
  | cons x xs ih =>
    intro a l2 h1 hpa
    have hx : p x = false := h1 x (by simp)
    rw [List.cons_append, List.find?_cons_of_neg _ (by simp [hx])]
    exact ih a l2 (fun y hy => h1 y (by simp [hy])) hpa

theorem updateFirst_middle {α : Type} (p : α → Bool) (f : α → α) :
    ∀ (l1 : List α) (a : α) (l2 : List α),
      (∀ x ∈ l1, p x = false) → p a = true →
      updateFirst p f (l1 ++ a :: l2) = l1 ++ f a :: l2 := by
  intro l1
  induction l1 with
  | nil =>
    intro a l2 _ hpa
    simp [updateFirst, hpa]
  | cons x xs ih =>
    intro a l2 h1 hpa
    have hx : p x = false := h1 x (by simp)
    have hrec := ih a l2 (fun y hy => h1 y (by simp [hy])) hpa
    simp [updateFirst, hx, hrec]

theorem find?_some_decomp {α : Type} (p : α → Bool) :
    ∀ (l : List α) (a : α), l.find? p = some a →
      ∃ l1 l2, l = l1 ++ a :: l2 ∧ (∀ x ∈ l1, p x = false) ∧ p a = true := by
  intro l
  induction l with
  | nil => intro a h; simp [List.find?] at h
  | cons x xs ih =>
    intro a h
    by_cases hx : p x
    · rw [List.find?_cons_of_pos _ hx] at h
      obtain rfl : x = a := by simpa using h
      exact ⟨[], xs, by simp, by simp, hx⟩
    · rw [List.find?_cons_of_neg _ (by simpa using hx)] at h
      obtain ⟨l1, l2, hl, hpre, hpa⟩ := ih a h
      exact ⟨x :: l1, l2, by simp [hl], by
        intro y hy
        rcases List.mem_cons.mp hy with rfl | hy
        · simpa using hx
        · exact hpre y hy, hpa⟩

theorem countP_updateFirst_le {α : Type} (p q : α → Bool) (f : α → α)
    (hq : ∀ a, q (f a) = true → q a = true) :
    ∀ l : List α, (updateFirst p f l).countP q ≤ l.countP q := by
  intro l
  induction l with
  | nil => simp [updateFirst]
  | cons x xs ih =>
    by_cases hx : p x = true
    · simp only [updateFirst, hx, if_true]
      rw [List.countP_cons, List.countP_cons]
      have hb : (if q (f x) = true then 1 else 0) ≤ (if q x = true then 1 else 0) := by
        by_cases hfx : q (f x) = true
        · rw [if_pos hfx, if_pos (hq x hfx)]
        · rw [if_neg hfx]
          omega
      omega
    · have hx' : p x = false := by simpa using hx
      have : updateFirst p f (x :: xs) = x :: updateFirst p f xs := by
        simp [updateFirst, hx']
      rw [this, List.countP_cons, List.countP_cons]
      omega

theorem pairwise_replace_middle {α : Type} {R : α → α → Prop} {l1 l2 : List α} {a b : α}
    (h : (l1 ++ a :: l2).Pairwise R)
    (h1 : ∀ x ∈ l1, R x a → R x b)
    (h2 : ∀ x ∈ l2, R a x → R b x) :
    (l1 ++ b :: l2).Pairwise R := by
  rw [List.pairwise_append] at h ⊢
  obtain ⟨hl1, hcons, hcross⟩ := h
  rw [List.pairwise_cons] at hcons ⊢
  refine ⟨hl1, ⟨fun x hx => h2 x hx (hcons.1 x hx), hcons.2⟩, ?_⟩
  intro x hx y hy
  rcases List.mem_cons.mp hy with rfl | hy
  · exact h1 x hx (hcross x hx a (List.mem_cons_self a l2))
  · exact hcross x hx y (List.mem_cons_of_mem a hy)

theorem getElem?_middle_self {α : Type} (l1 l2 : List α) (a : α) :
    (l1 ++ a :: l2)[l1.length]? = some a := by
  rw [List.getElem?_append_right (le_refl _)]
  simp

theorem getElem?_middle_ne {α : Type} (l1 l2 : List α) (a b : α) (i : Nat)
    (h : i ≠ l1.length) :
    (l1 ++ a :: l2)[i]? = (l1 ++ b :: l2)[i]? := by
  rcases Nat.lt_or_ge i l1.length with hlt | hge
  · rw [List.getElem?_append_left hlt, List.getElem?_append_left hlt]
  · rw [List.getElem?_append_right hge, List.getElem?_append_right hge]
    obtain ⟨k, hk⟩ : ∃ k, i - l1.length = k + 1 := ⟨i - l1.length - 1, by omega⟩
    rw [hk, List.getElem?_cons_succ, List.getElem?_cons_succ]

/-- Induction principle over request sequences. -/
theorem runOps_preserves {P : ServerState → Prop}
    (hstep : ∀ s op, P s → P (applyOp s op)) :
    ∀ (ops : List Op) (s : ServerState), P s → P (runOps s ops) := by
  intro ops
  induction ops with
  | nil => intro s hs; exact hs
  | cons op rest ih => intro s hs; exact ih (applyOp s op) (hstep s op hs)

/-! Characterizations of the individual handlers -/

theorem create_task_cases (s : ServerState) (task : TaskIn) :
    (s.tasks.any (fun t => t.title == task.title) = true ∧
      create_task s task = .error duplicateTitleErr) ∨
    (s.tasks.any (fun t => t.title == task.title) = false ∧
      create_task s task =
        .ok ({ s with tasks := s.tasks ++
                 [⟨s.tasks.length + 1, task.title, task.description, task.status⟩] },
             ⟨s.tasks.length + 1, task.title, task.description, task.status⟩)) := by
  by_cases hc : s.tasks.any (fun t => t.title == task.title) = true
  · exact Or.inl ⟨hc, by rw [create_task, if_pos hc]⟩
  · exact Or.inr ⟨by simpa using hc, by rw [create_task, if_neg hc]⟩

theorem create_pomodoro_tasks_eq (s : ServerState) (task_id : Nat) (now : Int)
    (s' : ServerState) (session : PomodoroSession)
    (h : create_pomodoro s task_id now = .ok (s', session)) : s'.tasks = s.tasks := by
  rw [create_pomodoro] at h
  split at h
  · cases h
  · split at h
    · cases h
    · injection h with h
      injection h with h1 h2
      rw [← h1]

theorem stop_pomodoro_tasks_eq (s : ServerState) (task_id : Nat) (now : Int)
    (s' : ServerState)
    (h : stop_pomodoro s task_id now = .ok s') : s'.tasks = s.tasks := by
  rw [stop_pomodoro] at h
  split at h
  · cases h
  · injection h with h
    rw [← h]

theorem delete_task_cases (s : ServerState) (task_id : Nat) :
    (s.tasks.find? (fun t => t.id == task_id) = none ∧
      delete_task s task_id = .error notFoundErr) ∨
    ((∃ t, s.tasks.find? (fun t => t.id == task_id) = some t) ∧
      delete_task s task_id =
        .ok { s with tasks := s.tasks.filter (fun t => t.id != task_id) }) := by
  cases hf : s.tasks.find? (fun t => t.id == task_id) with
  | none => exact Or.inl ⟨rfl, by rw [delete_task, hf]⟩
  | some t => exact Or.inr ⟨⟨t, rfl⟩, by rw [delete_task, hf]⟩

theorem update_task_none (s : ServerState) (task_id : Nat) (u : TaskIn)
    (h : s.tasks.find? (fun t => t.id == task_id) = none) :
    update_task s task_id u = .error notFoundErr := by
  rw [update_task, h]

theorem update_task_some (s : ServerState) (task_id : Nat) (u : TaskIn)
    (task : TaskData) (h : s.tasks.find? (fun t => t.id == task_id) = some task) :
    ((u.title != task.title && s.tasks.any (fun t => t.title == u.title)) = true ∧
      update_task s task_id u = .error duplicateTitleErr) ∨
    ((u.title != task.title && s.tasks.any (fun t => t.title == u.title)) = false ∧
      update_task s task_id u =
        .ok ({ s with tasks := updateFirst (fun t => t.id == task_id) (applyTaskIn u) s.tasks },
             applyTaskIn u task)) := by
  by_cases hc : (u.title != task.title && s.tasks.any (fun t => t.title == u.title)) = true
  · exact Or.inl ⟨hc, by simp [update_task, h, hc]⟩
  · exact Or.inr ⟨by simpa using hc, by simp [update_task, h, hc]⟩

theorem create_pomodoro_none (s : ServerState) (task_id : Nat) (now : Int)
    (h : s.tasks.find? (fun t => t.id == task_id) = none) :
    create_pomodoro s task_id now = .error notFoundErr := by
  rw [create_pomodoro, h]

theorem create_pomodoro_some (s : ServerState) (task_id : Nat) (now : Int)
    (task : TaskData) (h : s.tasks.find? (fun t => t.id == task_id) = some task) :
    (s.pomodoro_sessions.any (isActive task_id) = true ∧
      create_pomodoro s task_id now = .error activeTimerExistsErr) ∨
    (s.pomodoro_sessions.any (isActive task_id) = false ∧
      create_pomodoro s task_id now =
        .ok ({ s with pomodoro_sessions := s.pomodoro_sessions ++
                 [⟨task_id, now, now + twentyFiveMinutes, false⟩] },
             ⟨task_id, now, now + twentyFiveMinutes, false⟩)) := by
  by_cases hc : s.pomodoro_sessions.any (isActive task_id) = true
  · exact Or.inl ⟨hc, by simp [create_pomodoro, h, hc]⟩
  · exact Or.inr ⟨by simpa using hc, by simp [create_pomodoro, h, hc]⟩

theorem stop_pomodoro_none (s : ServerState) (task_id : Nat) (now : Int)
    (h : s.pomodoro_sessions.find? (isActive task_id) = none) :
    stop_pomodoro s task_id now = .error noActiveTimerErr := by
  rw [stop_pomodoro, h]

theorem stop_pomodoro_some (s : ServerState) (task_id : Nat) (now : Int)
    (session : PomodoroSession)
    (h : s.pomodoro_sessions.find? (isActive task_id) = some session) :
    stop_pomodoro s task_id now =
      .ok { s with pomodoro_sessions := updateFirst (isActive task_id) (completeAt now) s.pomodoro_sessions } := by
  rw [stop_pomodoro, h]

/-! Bool guards versus propositional statements -/

theorem any_title_true_iff (l : List TaskData) (x : String) :
    l.any (fun t => t.title == x) = true ↔ ∃ t ∈ l, t.title = x := by
  simp [List.any_eq_true]

theorem any_title_false_iff (l : List TaskData) (x : String) :
    l.any (fun t => t.title == x) = false ↔ ∀ t ∈ l, t.title ≠ x := by
  rw [← Bool.not_eq_true, any_title_true_iff]
  push_neg
  rfl

theorem find?_id_none_iff (l : List TaskData) (task_id : Nat) :
    l.find? (fun t => t.id == task_id) = none ↔ ∀ t ∈ l, t.id ≠ task_id := by
  simp [List.find?_eq_none]

theorem any_isActive_true_iff (l : List PomodoroSession) (task_id : Nat) :
    l.any (isActive task_id) = true ↔
      ∃ session ∈ l, session.task_id = task_id ∧ session.completed = false := by
  simp [isActive, List.any_eq_true]

theorem find?_isActive_none_iff (l : List PomodoroSession) (task_id : Nat) :
    l.find? (isActive task_id) = none ↔
      ∀ session ∈ l, ¬(session.task_id = task_id ∧ session.completed = false) := by
  simp [isActive, List.find?_eq_none]

theorem isActive_true_iff (task_id : Nat) (session : PomodoroSession) :
    isActive task_id session = true ↔
      session.task_id = task_id ∧ session.completed = false := by
  simp [isActive]

/-! C1: ids are assigned as `len(tasks) + 1`, so deleted ids get reused -/

/-- C1: the claim that the id returned by Create equals the count of tasks
created so far and is never reused after a deletion fails on the code.
After creating "aaa" (id 1) and "bbb" (id 2) and deleting task 2, the
third-ever create is assigned `id = len(tasks) + 1 = 2`, reusing the
deleted id 2 instead of the claimed creation count 3; deleting task 1
instead of task 2 even leaves two coexisting tasks that share id 2,
although the repository's own `tasks_table` declares `id` a primary key. -/
theorem C1_id_reuse_eval :
    (create_task (runOps initState
        [Op.create { title := "aaa" }, Op.create { title := "bbb" }, Op.delete 2])
        { title := "ccc" } =
      .ok (⟨[⟨1, "aaa", none, "TODO"⟩, ⟨2, "ccc", none, "TODO"⟩], []⟩,
           ⟨2, "ccc", none, "TODO"⟩)) ∧
    (runOps initState
        [Op.create { title := "aaa" }, Op.create { title := "bbb" },
         Op.delete 1, Op.create { title := "ccc" }] =
      ⟨[⟨2, "bbb", none, "TODO"⟩, ⟨2, "ccc", none, "TODO"⟩], []⟩) := by
  exact ⟨rfl, rfl⟩

/-! C2: title uniqueness is an invariant -/

theorem applyOp_titles_pairwise (s : ServerState) (op : Op)
    (hp : s.tasks.Pairwise (fun a b => a.title ≠ b.title)) :
    (applyOp s op).tasks.Pairwise (fun a b => a.title ≠ b.title) := by
  cases op with
  | listTasks status => exact hp
  | get task_id => exact hp
  | stats => exact hp
  | create task =>
    rcases create_task_cases s task with ⟨_, he⟩ | ⟨hg, hok⟩
    · simp only [applyOp, he]; exact hp
    · simp only [applyOp, hok]
      rw [List.pairwise_append]
      refine ⟨hp, by simp, ?_⟩
      intro a ha b hb
      simp only [List.mem_singleton] at hb
      subst hb
      exact (any_title_false_iff s.tasks task.title).mp hg a ha
  | delete task_id =>
    rcases delete_task_cases s task_id with ⟨_, he⟩ | ⟨_, hok⟩
    · simp only [applyOp, he]; exact hp
    · simp only [applyOp, hok]
      exact hp.sublist (List.filter_sublist _)
  | start task_id now =>
    cases hres : create_pomodoro s task_id now with
    | error e => simp only [applyOp, hres]; exact hp
    | ok pr =>
      obtain ⟨s', session⟩ := pr
      simp only [applyOp, hres]
      rw [create_pomodoro_tasks_eq s task_id now s' session hres]
      exact hp
  | stop task_id now =>
    cases hres : stop_pomodoro s task_id now with
    | error e => simp only [applyOp, hres]; exact hp
    | ok s' =>
      simp only [applyOp, hres]
      rw [stop_pomodoro_tasks_eq s task_id now s' hres]
      exact hp
  | update task_id u =>
    cases hf : s.tasks.find? (fun t => t.id == task_id) with
    | none => simp only [applyOp, update_task_none s task_id u hf]; exact hp
    | some task =>
      rcases update_task_some s task_id u task hf with ⟨_, he⟩ | ⟨hg, hok⟩
      · simp only [applyOp, he]; exact hp
      · simp only [applyOp, hok]
        obtain ⟨l1, l2, hdecomp, hpre, hpa⟩ := find?_some_decomp _ s.tasks task hf
        rw [hdecomp, updateFirst_middle _ _ l1 task l2 hpre hpa]
        rw [hdecomp] at hp
        rcases Bool.and_eq_false_iff.mp hg with hsame | hfresh
        · have hsame' : u.title = task.title := by
            simpa using hsame
          refine pairwise_replace_middle hp ?_ ?_
          · intro x _ hr
            simpa [applyTaskIn, hsame'] using hr
          · intro x _ hr
            simpa [applyTaskIn, hsame'] using hr
        · have hfresh' : ∀ t ∈ s.tasks, t.title ≠ u.title :=
            (any_title_false_iff s.tasks u.title).mp hfresh
          refine pairwise_replace_middle hp ?_ ?_
          · intro x hx _
            have hmem : x ∈ s.tasks := by
              rw [hdecomp]; exact List.mem_append_left _ hx
            simpa [applyTaskIn] using hfresh' x hmem
          · intro x hx _
            have hmem : x ∈ s.tasks := by
              rw [hdecomp]
              exact List.mem_append_right _ (List.mem_cons_of_mem _ hx)
            have := hfresh' x hmem
            simp [applyTaskIn]
            exact fun hEq => this hEq.symm

/-- C2: title uniqueness is an invariant. In every state reachable by any
sequence of Create, List, Get, Update, Delete, Start, Stop and Stats
requests, no two tasks in the `tasks` collection have equal titles
(exact string comparison). -/
theorem C2_title_uniqueness (s : ServerState) (h : reachable s) :
    s.tasks.Pairwise (fun a b => a.title ≠ b.title) := by
  obtain ⟨ops, rfl⟩ := h
  exact runOps_preserves applyOp_titles_pairwise ops initState List.Pairwise.nil

/-- C2 witness: the invariant evaluated on a state reached by two creates. -/
theorem C2_title_uniqueness_witness :
    (runOps initState
        [Op.create { title := "abc" }, Op.create { title := "xyz" }]).tasks.Pairwise
      (fun a b => a.title ≠ b.title) :=
  C2_title_uniqueness _ ⟨[Op.create { title := "abc" }, Op.create { title := "xyz" }], rfl⟩

/-! C3: at most one active session per task -/

theorem applyOp_activeCount (s : ServerState) (op : Op)
    (hp : ∀ task_id, activeCount s.pomodoro_sessions task_id ≤ 1) :
    ∀ task_id, activeCount (applyOp s op).pomodoro_sessions task_id ≤ 1 := by
  intro tid
  cases op with
  | listTasks status => exact hp tid
  | get task_id => exact hp tid
  | stats => exact hp tid
  | create task =>
    rcases create_task_cases s task with ⟨_, he⟩ | ⟨_, hok⟩
    · simp only [applyOp, he]; exact hp tid
    · simp only [applyOp, hok]; exact hp tid
  | update task_id u =>
    cases hf : s.tasks.find? (fun t => t.id == task_id) with
    | none => simp only [applyOp, update_task_none s task_id u hf]; exact hp tid
    | some task =>
      rcases update_task_some s task_id u task hf with ⟨_, he⟩ | ⟨_, hok⟩
      · simp only [applyOp, he]; exact hp tid
      · simp only [applyOp, hok]; exact hp tid
  | delete task_id =>
    rcases delete_task_cases s task_id with ⟨_, he⟩ | ⟨_, hok⟩
    · simp only [applyOp, he]; exact hp tid
    · simp only [applyOp, hok]; exact hp tid
  | start task_id now =>
    cases hf : s.tasks.find? (fun t => t.id == task_id) with
    | none => simp only [applyOp, create_pomodoro_none s task_id now hf]; exact hp tid
    | some task =>
      rcases create_pomodoro_some s task_id now task hf with ⟨_, he⟩ | ⟨hg, hok⟩
      · simp only [applyOp, he]; exact hp tid
      · simp only [applyOp, hok]
        show activeCount (s.pomodoro_sessions ++ [⟨task_id, now, now + twentyFiveMinutes, false⟩]) tid ≤ 1
        unfold activeCount
        rw [List.countP_append]
        by_cases htid : task_id = tid
        · subst htid
          have h0 : s.pomodoro_sessions.countP (isActive task_id) = 0 := by
            rw [List.countP_eq_zero]
            intro a ha hact
            have hany : s.pomodoro_sessions.any (isActive task_id) = true :=
              List.any_eq_true.mpr ⟨a, ha, hact⟩
            rw [hg] at hany
            cases hany
          rw [h0]
          simp [isActive]
        · have h1 : isActive tid ⟨task_id, now, now + twentyFiveMinutes, false⟩ = false := by
            simp [isActive]
            intro hEq
            exact absurd hEq htid
          have h2 : List.countP (isActive tid) [⟨task_id, now, now + twentyFiveMinutes, false⟩] = 0 := by
            simp [List.countP_cons, h1]
          rw [h2]
          simpa using hp tid
  | stop task_id now =>
    cases hf : s.pomodoro_sessions.find? (isActive task_id) with
    | none => simp only [applyOp, stop_pomodoro_none s task_id now hf]; exact hp tid
    | some session =>
      simp only [applyOp, stop_pomodoro_some s task_id now session hf]
      show activeCount (updateFirst (isActive task_id) (completeAt now) s.pomodoro_sessions) tid ≤ 1
      unfold activeCount
      refine le_trans (countP_updateFirst_le _ _ _ ?_ _) (hp tid)
      intro a h
      simp [completeAt, isActive] at h

theorem applyOp_sessions_frame (s : ServerState) (op : Op)
    (hnotstop : ∀ task_id now, op ≠ Op.stop task_id now)
    (i : Nat) (session : PomodoroSession)
    (h : s.pomodoro_sessions[i]? = some session) :
    (applyOp s op).pomodoro_sessions[i]? = some session := by
  cases op with
  | stop task_id now => exact absurd rfl (hnotstop task_id now)
  | listTasks status => exact h
  | get task_id => exact h
  | stats => exact h
  | create task =>
    rcases create_task_cases s task with ⟨_, he⟩ | ⟨_, hok⟩
    · simp only [applyOp, he]; exact h
    · simp only [applyOp, hok]; exact h
  | update task_id u =>
    cases hf : s.tasks.find? (fun t => t.id == task_id) with
    | none => simp only [applyOp, update_task_none s task_id u hf]; exact h
    | some task =>
      rcases update_task_some s task_id u task hf with ⟨_, he⟩ | ⟨_, hok⟩
      · simp only [applyOp, he]; exact h
      · simp only [applyOp, hok]; exact h
  | delete task_id =>
    rcases delete_task_cases s task_id with ⟨_, he⟩ | ⟨_, hok⟩
    · simp only [applyOp, he]; exact h
    · simp only [applyOp, hok]; exact h
  | start task_id now =>
    cases hf : s.tasks.find? (fun t => t.id == task_id) with
    | none => simp only [applyOp, create_pomodoro_none s task_id now hf]; exact h
    | some task =>
      rcases create_pomodoro_some s task_id now task hf with ⟨_, he⟩ | ⟨_, hok⟩
      · simp only [applyOp, he]; exact h
      · simp only [applyOp, hok]
        obtain ⟨hlt, _⟩ := List.getElem?_eq_some.mp h
        show (s.pomodoro_sessions ++ [⟨task_id, now, now + twentyFiveMinutes, false⟩])[i]? = some session
        rw [List.getElem?_append_left hlt]
        exact h

theorem applyOp_stop_cases (s : ServerState) (task_id : Nat) (now : Int)
    (i : Nat) (session : PomodoroSession)
    (h : s.pomodoro_sessions[i]? = some session) :
    (applyOp s (Op.stop task_id now)).pomodoro_sessions[i]? = some session ∨
    (session.completed = false ∧ session.task_id = task_id ∧
      (applyOp s (Op.stop task_id now)).pomodoro_sessions[i]? =
        some { session with completed := true, end_time := now }) := by
  cases hf : s.pomodoro_sessions.find? (isActive task_id) with
  | none =>
    left
    simp only [applyOp, stop_pomodoro_none s task_id now hf]
    exact h
  | some found =>
    simp only [applyOp, stop_pomodoro_some s task_id now found hf]
    obtain ⟨l1, l2, hdecomp, hpre, hpa⟩ := find?_some_decomp _ _ found hf
    rw [hdecomp, updateFirst_middle _ _ l1 found l2 hpre hpa]
    by_cases hi : i = l1.length
    · subst hi
      rw [hdecomp, getElem?_middle_self] at h
      obtain rfl : found = session := by simpa using h
      obtain ⟨htid, hcomp⟩ := (isActive_true_iff task_id found).mp hpa
      right
      refine ⟨hcomp, htid, ?_⟩
      rw [getElem?_middle_self]
      rfl
    · left
      rw [hdecomp] at h
      rw [getElem?_middle_ne l1 l2 (completeAt now found) found i hi]
      exact h

/-- C3: single-active-timer is an invariant. In every reachable state each
task id has at most one session with `completed = false`; every request
other than Stop leaves every existing session record untouched; and Stop
either leaves a session untouched or turns exactly its `completed` flag
from false to true (overwriting `end_time`), so no request ever resets
`completed` to false. -/
theorem C3_single_active_timer :
    (∀ s : ServerState, reachable s →
      ∀ task_id, activeCount s.pomodoro_sessions task_id ≤ 1) ∧
    (∀ (s : ServerState) (op : Op), (∀ task_id now, op ≠ Op.stop task_id now) →
      ∀ (i : Nat) (session : PomodoroSession),
        s.pomodoro_sessions[i]? = some session →
        (applyOp s op).pomodoro_sessions[i]? = some session) ∧
    (∀ (s : ServerState) (task_id : Nat) (now : Int) (i : Nat)
        (session : PomodoroSession),
      s.pomodoro_sessions[i]? = some session →
      (applyOp s (Op.stop task_id now)).pomodoro_sessions[i]? = some session ∨
      (session.completed = false ∧ session.task_id = task_id ∧
        (applyOp s (Op.stop task_id now)).pomodoro_sessions[i]? =
          some { session with completed := true, end_time := now })) := by
  refine ⟨?_, ?_, ?_⟩
  · intro s hs
    obtain ⟨ops, rfl⟩ := hs
    refine runOps_preserves applyOp_activeCount ops initState ?_
    intro tid
    simp [activeCount, initState]
  · intro s op hnotstop i session h
    exact applyOp_sessions_frame s op hnotstop i session h
  · intro s task_id now i session h
    exact applyOp_stop_cases s task_id now i session h

/-- C3 witness: the three parts evaluated on small concrete states. -/
theorem C3_single_active_timer_witness :
    activeCount (runOps initState
      [Op.create { title := "abc" }, Op.start 1 0]).pomodoro_sessions 1 ≤ 1 ∧
    (applyOp ⟨[], [⟨1, 0, 1500, false⟩]⟩
      (Op.create { title := "abc" })).pomodoro_sessions[0]? = some ⟨1, 0, 1500, false⟩ ∧
    ((applyOp ⟨[], [⟨1, 0, 1500, false⟩]⟩
        (Op.stop 1 42)).pomodoro_sessions[0]? = some ⟨1, 0, 1500, false⟩ ∨
      (false = false ∧ (1 : Nat) = 1 ∧
        (applyOp ⟨[], [⟨1, 0, 1500, false⟩]⟩
          (Op.stop 1 42)).pomodoro_sessions[0]? = some ⟨1, 0, 42, true⟩)) :=
  ⟨C3_single_active_timer.1 _ ⟨[Op.create { title := "abc" }, Op.start 1 0], rfl⟩ 1,
   C3_single_active_timer.2.1 _ _ (fun _ _ hEq => Op.noConfusion hEq) 0 _ (by simp),
   C3_single_active_timer.2.2 ⟨[], [⟨1, 0, 1500, false⟩]⟩ 1 42 0
     ⟨1, 0, 1500, false⟩ (by simp)⟩

/-! C4: Create fails with DuplicateTitle exactly on an existing title -/

/-- C4: `create_task` fails with DuplicateTitle if and only if some
currently-existing task has a title exactly equal to the request's title
(the check reads nothing but titles); otherwise it appends a record with
the given fields and id `len(tasks) + 1` and returns it, leaving every
previously existing task and all sessions unchanged. A request that omits
`description` and `status` gets `none` and `"TODO"`. -/
theorem C4_create_task (s : ServerState) (task : TaskIn) :
    (create_task s task = .error duplicateTitleErr ↔
      ∃ t ∈ s.tasks, t.title = task.title) ∧
    ((∀ t ∈ s.tasks, t.title ≠ task.title) →
      create_task s task =
        .ok ({ s with tasks := s.tasks ++
                 [⟨s.tasks.length + 1, task.title, task.description, task.status⟩] },
             ⟨s.tasks.length + 1, task.title, task.description, task.status⟩)) ∧
    (∀ title : String, ({ title := title } : TaskIn).status = "TODO" ∧
      ({ title := title } : TaskIn).description = none) := by
  refine ⟨⟨?_, ?_⟩, ?_, fun _ => ⟨rfl, rfl⟩⟩
  · intro h
    rcases create_task_cases s task with ⟨hg, _⟩ | ⟨_, hok⟩
    · exact (any_title_true_iff _ _).mp hg
    · rw [hok] at h
      exact Except.noConfusion h
  · intro hex
    rcases create_task_cases s task with ⟨_, he⟩ | ⟨hg, _⟩
    · exact he
    · exfalso
      obtain ⟨t, ht, htt⟩ := hex
      exact (any_title_false_iff _ _).mp hg t ht htt
  · intro hforall
    rcases create_task_cases s task with ⟨hg, _⟩ | ⟨_, hok⟩
    · exfalso
      obtain ⟨t, ht, htt⟩ := (any_title_true_iff _ _).mp hg
      exact hforall t ht htt
    · exact hok

/-- C4 witness: creating in the empty state succeeds with id 1, and the
schema defaults hold. -/
theorem C4_create_task_witness :
    create_task initState { title := "abc" } =
      .ok (⟨[⟨1, "abc", none, "TODO"⟩], []⟩, ⟨1, "abc", none, "TODO"⟩) :=
  (C4_create_task initState { title := "abc" }).2.1 (by simp [initState])

/-! C5: Start checks the task, then the active-timer lock -/

/-- C5: `create_pomodoro` fails with NotFound when no task currently has
the id; otherwise fails with ActiveTimerExists when some session for the
id has `completed = false`; otherwise appends exactly one session with
`start_time = now`, `end_time = now + 25 minutes`, `completed = false`
and returns it. In both failure cases the state is unchanged. -/
theorem C5_create_pomodoro (s : ServerState) (task_id : Nat) (now : Int) :
    ((∀ t ∈ s.tasks, t.id ≠ task_id) →
      create_pomodoro s task_id now = .error notFoundErr) ∧
    ((∃ t ∈ s.tasks, t.id = task_id) →
      (∃ session ∈ s.pomodoro_sessions,
        session.task_id = task_id ∧ session.completed = false) →
      create_pomodoro s task_id now = .error activeTimerExistsErr) ∧
    ((∃ t ∈ s.tasks, t.id = task_id) →
      (∀ session ∈ s.pomodoro_sessions,
        ¬(session.task_id = task_id ∧ session.completed = false)) →
      create_pomodoro s task_id now =
        .ok ({ s with pomodoro_sessions := s.pomodoro_sessions ++
                 [⟨task_id, now, now + twentyFiveMinutes, false⟩] },
             ⟨task_id, now, now + twentyFiveMinutes, false⟩)) ∧
    (∀ e, create_pomodoro s task_id now = .error e →
      applyOp s (Op.start task_id now) = s) := by
  refine ⟨?_, ?_, ?_, ?_⟩
  · intro hforall
    exact create_pomodoro_none s task_id now ((find?_id_none_iff _ _).mpr hforall)
  · intro hex hactive
    cases hf : s.tasks.find? (fun t => t.id == task_id) with
    | none =>
      exfalso
      obtain ⟨t, ht, hid⟩ := hex
      exact (find?_id_none_iff _ _).mp hf t ht hid
    | some task =>
      rcases create_pomodoro_some s task_id now task hf with ⟨_, he⟩ | ⟨hg, _⟩
      · exact he
      · exfalso
        have hany : s.pomodoro_sessions.any (isActive task_id) = true :=
          (any_isActive_true_iff _ _).mpr hactive
        rw [hg] at hany
        exact Bool.noConfusion hany
  · intro hex hnone
    cases hf : s.tasks.find? (fun t => t.id == task_id) with
    | none =>
      exfalso
      obtain ⟨t, ht, hid⟩ := hex
      exact (find?_id_none_iff _ _).mp hf t ht hid
    | some task =>
      rcases create_pomodoro_some s task_id now task hf with ⟨hg, _⟩ | ⟨_, hok⟩
      · exfalso
        obtain ⟨session, hs, htid, hcomp⟩ := (any_isActive_true_iff _ _).mp hg
        exact hnone session hs ⟨htid, hcomp⟩
      · exact hok
  · intro e he
    simp only [applyOp, he]

/-- C5 witness: starting a timer for the only task succeeds; starting one
for a missing task fails with 404. -/
theorem C5_create_pomodoro_witness :
    create_pomodoro ⟨[⟨1, "abc", none, "TODO"⟩], []⟩ 1 100 =
      .ok (⟨[⟨1, "abc", none, "TODO"⟩], [⟨1, 100, 1600, false⟩]⟩,
           ⟨1, 100, 1600, false⟩) ∧
    create_pomodoro initState 1 100 = .error notFoundErr :=
  ⟨(C5_create_pomodoro ⟨[⟨1, "abc", none, "TODO"⟩], []⟩ 1 100).2.2.1
      ⟨⟨1, "abc", none, "TODO"⟩, by simp, rfl⟩ (by simp),
   (C5_create_pomodoro initState 1 100).1 (by simp [initState])⟩

/-! C6: Stop completes the active session in place -/

/-- C6: `stop_pomodoro` fails with NoActiveTimer if and only if no session
for the task id has `completed = false`; otherwise it mutates the first
such session in place, setting `completed = true` and overwriting
`end_time` with the current time (not the scheduled `start_time + 25
minutes`), leaving every other session and the whole tasks list unchanged. -/
theorem C6_stop_pomodoro (s : ServerState) (task_id : Nat) (now : Int) :
    (stop_pomodoro s task_id now = .error noActiveTimerErr ↔
      ∀ session ∈ s.pomodoro_sessions,
        ¬(session.task_id = task_id ∧ session.completed = false)) ∧
    (∀ (l1 : List PomodoroSession) (a : PomodoroSession) (l2 : List PomodoroSession),
      s.pomodoro_sessions = l1 ++ a :: l2 →
      (∀ x ∈ l1, ¬(x.task_id = task_id ∧ x.completed = false)) →
      a.task_id = task_id → a.completed = false →
      stop_pomodoro s task_id now =
        .ok { s with pomodoro_sessions :=
                l1 ++ { a with completed := true, end_time := now } :: l2 }) := by
  constructor
  · constructor
    · intro h
      cases hf : s.pomodoro_sessions.find? (isActive task_id) with
      | none => exact (find?_isActive_none_iff _ _).mp hf
      | some session =>
        rw [stop_pomodoro_some s task_id now session hf] at h
        exact Except.noConfusion h
    · intro hnone
      exact stop_pomodoro_none s task_id now ((find?_isActive_none_iff _ _).mpr hnone)
  · intro l1 a l2 hdecomp hpre hta hca
    have hpre' : ∀ x ∈ l1, isActive task_id x = false := by
      intro x hx
      cases hb : isActive task_id x with
      | false => rfl
      | true => exact absurd ((isActive_true_iff _ _).mp hb) (hpre x hx)
    have hpa : isActive task_id a = true := (isActive_true_iff _ _).mpr ⟨hta, hca⟩
    have hfind : s.pomodoro_sessions.find? (isActive task_id) = some a := by
      rw [hdecomp]
      exact find?_middle _ l1 a l2 hpre' hpa
    rw [stop_pomodoro_some s task_id now a hfind, hdecomp,
        updateFirst_middle _ _ l1 a l2 hpre' hpa]
    rfl

/-- C6 witness: stopping the single active session rewrites its
`end_time` to the stop instant; stopping with no session fails. -/
theorem C6_stop_pomodoro_witness :
    stop_pomodoro ⟨[], [⟨1, 0, 1500, false⟩]⟩ 1 42 = .ok ⟨[], [⟨1, 0, 42, true⟩]⟩ ∧
    stop_pomodoro initState 1 42 = .error noActiveTimerErr :=
  ⟨(C6_stop_pomodoro ⟨[], [⟨1, 0, 1500, false⟩]⟩ 1 42).2
      [] ⟨1, 0, 1500, false⟩ [] rfl (by simp) rfl rfl,
   (C6_stop_pomodoro initState 1 42).1.mpr (by simp [initState])⟩

/-! C7: the stats dict aggregates exactly the completed sessions -/

theorem completedFor_true_iff (task_id : Nat) (session : PomodoroSession) :
    completedFor task_id session = true ↔
      session.completed = true ∧ session.task_id = task_id := by
  simp [completedFor]

theorem totalFor_cons (session : PomodoroSession) (rest : List PomodoroSession)
    (task_id : Nat) :
    totalFor (session :: rest) task_id =
      if completedFor task_id session then
        (session.end_time - session.start_time) + totalFor rest task_id
      else totalFor rest task_id := by
  by_cases hc : completedFor task_id session = true <;>
    simp [totalFor, List.filter_cons, hc]

theorem find?_key_skip (l1 l2 : List (Nat × Stat)) (c : Nat × Stat) (task_id : Nat)
    (hc : (c.1 == task_id) = false) :
    ((l1 ++ c :: l2).find? (fun p => p.1 == task_id)) =
      ((l1.find? (fun p => p.1 == task_id)).or (l2.find? (fun p => p.1 == task_id))) := by
  rw [List.find?_append, List.find?_cons_of_neg _ (by simp [hc])]

theorem lookupStat_statsStep (acc : List (Nat × Stat)) (session : PomodoroSession)
    (task_id : Nat) :
    lookupStat (statsStep acc session) task_id =
      if completedFor task_id session then
        match lookupStat acc task_id with
        | some st => some ⟨st.count + 1,
                           st.total_time + (session.end_time - session.start_time)⟩
        | none => some ⟨1, session.end_time - session.start_time⟩
      else lookupStat acc task_id := by
  by_cases hcomp : session.completed = true
  · by_cases hk : (session.task_id == task_id) = true
    · have hk' : session.task_id = task_id := by simpa using hk
      have hcfor : completedFor task_id session = true := by
        simp [completedFor, hcomp, hk']
      rw [if_pos hcfor]
      cases hf : acc.find? (fun p => p.1 == session.task_id) with
      | some e =>
        obtain ⟨l1, l2, hdecomp, hpre, hpe⟩ := find?_some_decomp _ acc e hf
        have hstep : statsStep acc session =
            updateFirst (fun p => p.1 == session.task_id)
              (fun p => (p.1, ⟨p.2.count + 1,
                p.2.total_time + (session.end_time - session.start_time)⟩)) acc := by
          simp [statsStep, hcomp, hf]
        rw [hstep, hdecomp,
          updateFirst_middle _ _ l1 e l2 hpre hpe]
        have hpre' : ∀ x ∈ l1, (x.1 == task_id) = false := by
          intro x hx
          rw [← hk']
          exact hpre x hx
        have hpe' : ((e.1, (⟨e.2.count + 1,
            e.2.total_time + (session.end_time - session.start_time)⟩ : Stat)).1
              == task_id) = true := by
          rw [← hk']
          exact hpe
        unfold lookupStat
        rw [find?_middle _ l1 _ l2 hpre' hpe',
          find?_middle _ l1 e l2 hpre' (by rw [← hk']; exact hpe)]
        rfl
      | none =>
        have hpre : ∀ x ∈ acc, ((fun p => p.1 == session.task_id) x) = false := by
          intro x hx
          have := List.find?_eq_none.mp hf x hx
          simpa using this
        have hstep : statsStep acc session =
            updateFirst (fun p => p.1 == session.task_id)
              (fun p => (p.1, ⟨p.2.count + 1,
                p.2.total_time + (session.end_time - session.start_time)⟩))
              (acc ++ [(session.task_id, ⟨0, 0⟩)]) := by
          simp [statsStep, hcomp, hf]
        have hmid : acc ++ [(session.task_id, (⟨0, 0⟩ : Stat))] =
            acc ++ (session.task_id, (⟨0, 0⟩ : Stat)) :: [] := rfl
        rw [hstep, hmid, updateFirst_middle _ _ acc (session.task_id, ⟨0, 0⟩) []
          hpre (by simp)]
        have hpre' : ∀ x ∈ acc, (x.1 == task_id) = false := by
          intro x hx
          rw [← hk']
          exact hpre x hx
        unfold lookupStat
        rw [find?_middle _ acc _ [] hpre' (by simp [hk'])]
        have : acc.find? (fun p => p.1 == task_id) = none := by
          rw [List.find?_eq_none]
          intro x hx
          simp [hpre' x hx]
        rw [this]
        simp
    · have hk' : session.task_id ≠ task_id := by simpa using hk
      have hcfor : completedFor task_id session = false := by
        simp [completedFor, hcomp, hk']
      rw [hcfor]
      simp only [Bool.false_eq_true, if_false]
      cases hf : acc.find? (fun p => p.1 == session.task_id) with
      | some e =>
        obtain ⟨l1, l2, hdecomp, hpre, hpe⟩ := find?_some_decomp _ acc e hf
        have hstep : statsStep acc session =
            updateFirst (fun p => p.1 == session.task_id)
              (fun p => (p.1, ⟨p.2.count + 1,
                p.2.total_time + (session.end_time - session.start_time)⟩)) acc := by
          simp [statsStep, hcomp, hf]
        rw [hstep, hdecomp,
          updateFirst_middle _ _ l1 e l2 hpre hpe]
        have he1 : (e.1 == task_id) = false := by
          have : e.1 = session.task_id := by simpa using hpe
          simp [this, hk']
        unfold lookupStat
        rw [find?_key_skip l1 l2 _ task_id (by simpa using he1),
          find?_key_skip l1 l2 e task_id he1]
      | none =>
        have hstep : statsStep acc session =
            updateFirst (fun p => p.1 == session.task_id)
              (fun p => (p.1, ⟨p.2.count + 1,
                p.2.total_time + (session.end_time - session.start_time)⟩))
              (acc ++ [(session.task_id, ⟨0, 0⟩)]) := by
          simp [statsStep, hcomp, hf]
        have hpre : ∀ x ∈ acc, ((fun p => p.1 == session.task_id) x) = false := by
          intro x hx
          have := List.find?_eq_none.mp hf x hx
          simpa using this
        have hmid : acc ++ [(session.task_id, (⟨0, 0⟩ : Stat))] =
            acc ++ (session.task_id, (⟨0, 0⟩ : Stat)) :: [] := rfl
        rw [hstep, hmid, updateFirst_middle _ _ acc (session.task_id, ⟨0, 0⟩) []
          hpre (by simp)]
        unfold lookupStat
        rw [find?_key_skip acc [] _ task_id (by simp [hk']), List.find?_nil,
          Option.or_none]
  · have hcomp' : session.completed = false := by simpa using hcomp
    have hcfor : completedFor task_id session = false := by
      simp [completedFor, hcomp']
    rw [hcfor]
    simp only [Bool.false_eq_true, if_false]
    have : statsStep acc session = acc := by
      simp [statsStep, hcomp']
    rw [this]

theorem lookupStat_foldl (task_id : Nat) :
    ∀ (l : List PomodoroSession) (acc : List (Nat × Stat)),
      lookupStat (l.foldl statsStep acc) task_id =
        match lookupStat acc task_id with
        | some st => some ⟨st.count + l.countP (completedFor task_id),
                           st.total_time + totalFor l task_id⟩
        | none =>
          if l.countP (completedFor task_id) = 0 then none
          else some ⟨l.countP (completedFor task_id), totalFor l task_id⟩ := by
  intro l
  induction l with
  | nil =>
    intro acc
    cases hacc : lookupStat acc task_id with
    | some st => simp [hacc, totalFor]
    | none => simp [hacc]
  | cons session rest ih =>
    intro acc
    rw [List.foldl_cons, ih (statsStep acc session), lookupStat_statsStep acc session task_id]
    by_cases hc : completedFor task_id session = true
    · rw [if_pos hc]
      have h1 : List.countP (completedFor task_id) (session :: rest) =
          rest.countP (completedFor task_id) + 1 := by
        rw [List.countP_cons, hc]
        simp
      have h2 : totalFor (session :: rest) task_id =
          (session.end_time - session.start_time) + totalFor rest task_id := by
        rw [totalFor_cons, if_pos hc]
      rw [h1, h2]
      cases hacc : lookupStat acc task_id with
      | some st =>
        simp only [hacc]
        have hcnt : st.count + 1 + rest.countP (completedFor task_id) =
            st.count + (rest.countP (completedFor task_id) + 1) := by omega
        have htot : st.total_time + (session.end_time - session.start_time) +
            totalFor rest task_id =
            st.total_time + ((session.end_time - session.start_time) +
              totalFor rest task_id) := by omega
        rw [hcnt, htot]
      | none =>
        simp only [hacc]
        rw [if_neg (by omega)]
        have hcnt : 1 + rest.countP (completedFor task_id) =
            rest.countP (completedFor task_id) + 1 := by omega
        rw [hcnt]
    · have hc' : completedFor task_id session = false := by simpa using hc
      rw [hc']
      simp only [Bool.false_eq_true, if_false]
      have h1 : List.countP (completedFor task_id) (session :: rest) =
          rest.countP (completedFor task_id) := by
        rw [List.countP_cons, hc']
        simp
      have h2 : totalFor (session :: rest) task_id = totalFor rest task_id := by
        rw [totalFor_cons, if_neg (by simp [hc'])]
      rw [h1, h2]

/-- C7: the stats mapping has exactly the task ids owning at least one
completed session as its domain; the entry of such an id counts its
completed sessions and sums their `end_time - start_time`; uncompleted
sessions contribute nothing; and the result reads only the sessions list,
so a deleted task keeps its entry. -/
theorem C7_stats (s : ServerState) (task_id : Nat) :
    ((lookupStat (get_pomodoro_stats s) task_id).isSome ↔
      ∃ session ∈ s.pomodoro_sessions,
        session.completed = true ∧ session.task_id = task_id) ∧
    (∀ st, lookupStat (get_pomodoro_stats s) task_id = some st →
      st.count = s.pomodoro_sessions.countP (completedFor task_id) ∧
      st.total_time = totalFor s.pomodoro_sessions task_id) ∧
    (∀ tasks2 : List TaskData,
      get_pomodoro_stats ⟨tasks2, s.pomodoro_sessions⟩ = get_pomodoro_stats s) := by
  have hfold := lookupStat_foldl task_id s.pomodoro_sessions []
  have hnil : lookupStat ([] : List (Nat × Stat)) task_id = none := rfl
  rw [hnil] at hfold
  have hcount : s.pomodoro_sessions.countP (completedFor task_id) = 0 ↔
      ¬∃ session ∈ s.pomodoro_sessions,
        session.completed = true ∧ session.task_id = task_id := by
    rw [List.countP_eq_zero]
    constructor
    · rintro h ⟨session, hs, hcomp, htid⟩
      exact h session hs ((completedFor_true_iff task_id session).mpr ⟨hcomp, htid⟩)
    · intro h session hs hcfor
      exact h ⟨session, hs, (completedFor_true_iff task_id session).mp hcfor⟩
  refine ⟨?_, ?_, fun _ => rfl⟩
  · by_cases h0 : s.pomodoro_sessions.countP (completedFor task_id) = 0
    · rw [show lookupStat (get_pomodoro_stats s) task_id = none from by
        rw [show get_pomodoro_stats s = s.pomodoro_sessions.foldl statsStep [] from rfl,
          hfold, if_pos h0]]
      simp only [Option.isSome_none, Bool.false_eq_true, false_iff]
      exact hcount.mp h0
    · rw [show lookupStat (get_pomodoro_stats s) task_id =
          some ⟨s.pomodoro_sessions.countP (completedFor task_id),
                totalFor s.pomodoro_sessions task_id⟩ from by
        rw [show get_pomodoro_stats s = s.pomodoro_sessions.foldl statsStep [] from rfl,
          hfold, if_neg h0]]
      simp only [Option.isSome_some, true_iff]
      by_contra hno
      exact h0 (hcount.mpr hno)
  · intro st hst
    rw [show get_pomodoro_stats s = s.pomodoro_sessions.foldl statsStep [] from rfl,
      hfold] at hst
    by_cases h0 : s.pomodoro_sessions.countP (completedFor task_id) = 0
    · rw [if_pos h0] at hst
      exact Option.noConfusion hst
    · rw [if_neg h0] at hst
      obtain rfl : (⟨s.pomodoro_sessions.countP (completedFor task_id),
          totalFor s.pomodoro_sessions task_id⟩ : Stat) = st := by
        simpa using hst
      exact ⟨rfl, rfl⟩

/-- C7 witness: two completed sessions of durations 10 and 10 for task 1
and one uncompleted session for task 2 give the entry `⟨2, 20⟩` for
task 1, matching the count and total computed from the sessions list. -/
theorem C7_stats_witness :
    (⟨2, 20⟩ : Stat).count =
      List.countP (completedFor 1)
        [⟨1, 0, 10, true⟩, ⟨1, 20, 30, true⟩, ⟨2, 0, 5, false⟩] ∧
    (⟨2, 20⟩ : Stat).total_time =
      totalFor [⟨1, 0, 10, true⟩, ⟨1, 20, 30, true⟩, ⟨2, 0, 5, false⟩] 1 :=
  (C7_stats ⟨[], [⟨1, 0, 10, true⟩, ⟨1, 20, 30, true⟩, ⟨2, 0, 5, false⟩]⟩ 1).2.1
    ⟨2, 20⟩ (by rfl)

/-! C8: Update replaces the found record in place -/

/-- C8: `update_task` fails with NotFound when no task has the id. When the
first task with the id is found, it fails with DuplicateTitle if and only
if the new title differs from that task's current title and some task
already carries the new title; updating with an unchanged title never
raises DuplicateTitle; otherwise the found record's title, description and
status are replaced in place with its id preserved, all other tasks and
all sessions untouched. -/
theorem C8_update_task (s : ServerState) (task_id : Nat) (u : TaskIn) :
    ((∀ t ∈ s.tasks, t.id ≠ task_id) →
      update_task s task_id u = .error notFoundErr) ∧
    (∀ (l1 : List TaskData) (a : TaskData) (l2 : List TaskData),
      s.tasks = l1 ++ a :: l2 → (∀ x ∈ l1, x.id ≠ task_id) → a.id = task_id →
      ((update_task s task_id u = .error duplicateTitleErr ↔
         u.title ≠ a.title ∧ ∃ t ∈ s.tasks, t.title = u.title) ∧
       (u.title = a.title → update_task s task_id u ≠ .error duplicateTitleErr) ∧
       ((u.title = a.title ∨ ∀ t ∈ s.tasks, t.title ≠ u.title) →
         update_task s task_id u =
           .ok ({ s with tasks := l1 ++
                    { a with title := u.title, description := u.description,
                             status := u.status } :: l2 },
                { a with title := u.title, description := u.description,
                         status := u.status })))) := by
  constructor
  · intro hforall
    exact update_task_none s task_id u ((find?_id_none_iff _ _).mpr hforall)
  · intro l1 a l2 hdecomp hpre hta
    have hpre' : ∀ x ∈ l1, ((fun t => t.id == task_id) x) = false := by
      intro x hx
      simpa using hpre x hx
    have hpa : ((fun t : TaskData => t.id == task_id) a) = true := by
      simpa using hta
    have hfind : s.tasks.find? (fun t => t.id == task_id) = some a := by
      rw [hdecomp]
      exact find?_middle _ l1 a l2 hpre' hpa
    have hiff : update_task s task_id u = .error duplicateTitleErr ↔
        u.title ≠ a.title ∧ ∃ t ∈ s.tasks, t.title = u.title := by
      constructor
      · intro h
        rcases update_task_some s task_id u a hfind with ⟨hg, _⟩ | ⟨_, hok⟩
        · obtain ⟨hne, hany⟩ := Bool.and_eq_true_iff.mp hg
          exact ⟨bne_iff_ne.mp hne, (any_title_true_iff _ _).mp hany⟩
        · rw [hok] at h
          exact Except.noConfusion h
      · rintro ⟨hne, hex⟩
        rcases update_task_some s task_id u a hfind with ⟨_, he⟩ | ⟨hg, _⟩
        · exact he
        · exfalso
          rcases Bool.and_eq_false_iff.mp hg with hb | hb
          · exact hne (by simpa using hb)
          · obtain ⟨t, ht, htt⟩ := hex
            exact (any_title_false_iff _ _).mp hb t ht htt
    refine ⟨hiff, ?_, ?_⟩
    · intro hsame h
      exact (hiff.mp h).1 hsame
    · intro hcase
      have hg : (u.title != a.title && s.tasks.any (fun t => t.title == u.title)) = false := by
        rcases hcase with hsame | hfresh
        · have : (u.title != a.title) = false := by
            simp [hsame]
          rw [this]
          simp
        · have : s.tasks.any (fun t => t.title == u.title) = false :=
            (any_title_false_iff _ _).mpr hfresh
          rw [this]
          simp
      rcases update_task_some s task_id u a hfind with ⟨hg', _⟩ | ⟨_, hok⟩
      · rw [hg] at hg'
        exact Bool.noConfusion hg'
      · rw [hok, hdecomp, updateFirst_middle _ _ l1 a l2 hpre' hpa]
        rfl

/-- C8 witness: updating the only task's title, description and status in
place keeps its id; the old title may be reused. -/
theorem C8_update_task_witness :
    update_task ⟨[⟨1, "abc", none, "TODO"⟩], []⟩ 1
        { title := "xyz", status := "done" } =
      .ok (⟨[⟨1, "xyz", none, "done"⟩], []⟩, ⟨1, "xyz", none, "done"⟩) :=
  ((C8_update_task ⟨[⟨1, "abc", none, "TODO"⟩], []⟩ 1
      { title := "xyz", status := "done" }).2
    [] ⟨1, "abc", none, "TODO"⟩ [] rfl (by simp) rfl).2.2 (Or.inr (by decide))

/-! C9: Delete removes exactly the matching ids and nothing else -/

/-- C9: `delete_task` fails with NotFound and changes nothing when no task
has the id; on success the tasks list keeps exactly the records whose id
differs, in their original order and contents, and the sessions list is
left entirely unchanged. -/
theorem C9_delete_task (s : ServerState) (task_id : Nat) :
    ((∀ t ∈ s.tasks, t.id ≠ task_id) →
      delete_task s task_id = .error notFoundErr ∧
      applyOp s (Op.delete task_id) = s) ∧
    ((∃ t ∈ s.tasks, t.id = task_id) →
      delete_task s task_id =
        .ok { s with tasks := s.tasks.filter (fun t => t.id != task_id) }) ∧
    (∀ s', delete_task s task_id = .ok s' →
      s'.pomodoro_sessions = s.pomodoro_sessions ∧
      s'.tasks.Sublist s.tasks ∧
      ∀ t : TaskData, t ∈ s'.tasks ↔ (t ∈ s.tasks ∧ t.id ≠ task_id)) := by
  refine ⟨?_, ?_, ?_⟩
  · intro hforall
    have he := delete_task_cases s task_id
    rcases he with ⟨_, he⟩ | ⟨⟨t, hf⟩, _⟩
    · exact ⟨he, by simp only [applyOp, he]⟩
    · exfalso
      have := List.find?_some hf
      exact hforall t (List.mem_of_find?_eq_some hf) (by simpa using this)
  · intro hex
    rcases delete_task_cases s task_id with ⟨hf, _⟩ | ⟨_, hok⟩
    · exfalso
      obtain ⟨t, ht, hid⟩ := hex
      exact (find?_id_none_iff _ _).mp hf t ht hid
    · exact hok
  · intro s' hok'
    rcases delete_task_cases s task_id with ⟨_, he⟩ | ⟨_, hok⟩
    · rw [he] at hok'
      exact Except.noConfusion hok'
    · rw [hok] at hok'
      obtain rfl : { s with tasks := s.tasks.filter (fun t => t.id != task_id) } = s' := by
        simpa using hok'
      refine ⟨rfl, List.filter_sublist _, ?_⟩
      intro t
      rw [show ({ s with tasks := s.tasks.filter (fun t => t.id != task_id) } :
          ServerState).tasks = s.tasks.filter (fun t => t.id != task_id) from rfl]
      rw [List.mem_filter, bne_iff_ne]

/-- C9 witness: deleting task 1 keeps task 2 and the session that
references the deleted id. -/
theorem C9_delete_task_witness :
    (delete_task ⟨[⟨1, "abc", none, "TODO"⟩, ⟨2, "xyz", none, "TODO"⟩],
        [⟨1, 0, 10, true⟩]⟩ 1 =
      .ok ⟨[⟨2, "xyz", none, "TODO"⟩], [⟨1, 0, 10, true⟩]⟩) ∧
    (delete_task initState 1 = .error notFoundErr ∧
      applyOp initState (Op.delete 1) = initState) :=
  ⟨(C9_delete_task ⟨[⟨1, "abc", none, "TODO"⟩, ⟨2, "xyz", none, "TODO"⟩],
        [⟨1, 0, 10, true⟩]⟩ 1).2.1 ⟨⟨1, "abc", none, "TODO"⟩, by simp, rfl⟩,
   (C9_delete_task initState 1).1 (by simp [initState])⟩

/-! C10: Stop never consults the tasks list -/

/-- C10: `stop_pomodoro` reads and writes only the sessions list: its
outcome is the same for any contents of the tasks list, it succeeds
whenever an uncompleted session for the id exists (even when the task was
deleted or never existed), and when no uncompleted session exists it
fails with NoActiveTimer (HTTP 400), never with NotFound (404). -/
theorem C10_stop_ignores_tasks (tasks1 tasks2 : List TaskData)
    (sessions : List PomodoroSession) (task_id : Nat) (now : Int) :
    ((stop_pomodoro ⟨tasks1, sessions⟩ task_id now).map ServerState.pomodoro_sessions =
     (stop_pomodoro ⟨tasks2, sessions⟩ task_id now).map ServerState.pomodoro_sessions) ∧
    ((∃ session ∈ sessions, session.task_id = task_id ∧ session.completed = false) →
      ∃ s', stop_pomodoro ⟨tasks1, sessions⟩ task_id now = .ok s') ∧
    (∀ e, stop_pomodoro ⟨tasks1, sessions⟩ task_id now = .error e →
      e = noActiveTimerErr ∧ e.status_code = 400 ∧ e ≠ notFoundErr) := by
  refine ⟨?_, ?_, ?_⟩
  · cases hf : sessions.find? (isActive task_id) with
    | none =>
      rw [stop_pomodoro_none ⟨tasks1, sessions⟩ task_id now hf,
        stop_pomodoro_none ⟨tasks2, sessions⟩ task_id now hf]
    | some session =>
      rw [stop_pomodoro_some ⟨tasks1, sessions⟩ task_id now session hf,
        stop_pomodoro_some ⟨tasks2, sessions⟩ task_id now session hf]
      rfl
  · intro hex
    cases hf : sessions.find? (isActive task_id) with
    | none =>
      exfalso
      obtain ⟨session, hs, htid, hcomp⟩ := hex
      exact (find?_isActive_none_iff _ _).mp hf session hs ⟨htid, hcomp⟩
    | some session =>
      exact ⟨_, stop_pomodoro_some ⟨tasks1, sessions⟩ task_id now session hf⟩
  · intro e he
    cases hf : sessions.find? (isActive task_id) with
    | none =>
      rw [stop_pomodoro_none ⟨tasks1, sessions⟩ task_id now hf] at he
      obtain rfl : noActiveTimerErr = e := by simpa using he
      exact ⟨rfl, rfl, by decide⟩
    | some session =>
      rw [stop_pomodoro_some ⟨tasks1, sessions⟩ task_id now session hf] at he
      exact Except.noConfusion he

/-- C10 witness: with the tasks list empty (the task deleted or never
created) stopping an active session still succeeds, and stopping with no
session fails with the 400 NoActiveTimer error, not the 404 NotFound. -/
theorem C10_stop_ignores_tasks_witness :
    (∃ s', stop_pomodoro ⟨[], [⟨1, 0, 1500, false⟩]⟩ 1 42 = .ok s') ∧
    (noActiveTimerErr = noActiveTimerErr ∧ noActiveTimerErr.status_code = 400 ∧
      noActiveTimerErr ≠ notFoundErr) :=
  ⟨(C10_stop_ignores_tasks [] [⟨9, "zzz", none, "TODO"⟩] [⟨1, 0, 1500, false⟩] 1 42).2.1
      ⟨⟨1, 0, 1500, false⟩, by simp, rfl, rfl⟩,
   (C10_stop_ignores_tasks [] [] [] 1 42).2.2 noActiveTimerErr rfl⟩

end TaskApp
